import Mathlib

/-!
Verification development for the LIC leakage-measurement engine
(`LIC.py`).  The engine trains two attacker models (D on reference
data, M on generated data), evaluates each to a scalar score
("lambda"), combines the scores into a leakage-amplification value,
and amortizes the measurement over several trials with a statistical
aggregate.

The embedding below follows the Python source closely:

* the multi-trial aggregation `getAmortizedLeakage` (source lines
  213-244) is modelled over exact rationals, with the Bessel-corrected
  standard deviation kept at the level of its radicand (`torchVar`):
  IEEE produces `NaN` exactly when the radicand's denominator `n - 1`
  is zero (the numerator is then also zero), which the model encodes
  as `Option.none`;
* the per-epoch batch slicing of `train` (source lines 127-153) and
  the buffered batch evaluation of `calcLambda` (source lines 162-177)
  are modelled as explicit index/list computations;
* the stateful attacker lifecycle (`__init__`, `defineModel`, `train`,
  `calcLeak`) is modelled as a state machine with an explicit object
  store, so that object identity (`copy.deepcopy` versus aliasing) and
  in-place parameter mutation are expressible.
-/

namespace LIC

/-! ### Aggregation over trials (`getAmortizedLeakage`, lines 213-244) -/

/-- Model of `torch.mean(vals)` for a 1-D tensor: the sum of the entries
divided by the number of entries. -/
def torchMean (l : List ℚ) : ℚ :=
  l.sum / l.length

/-- Model of the radicand of `torch.std(vals)` (`torch.std` defaults to the
Bessel-corrected estimator `sqrt(Σ (v - mean)² / (n - 1))`).  The source
computes this in IEEE floating point, where `n ≤ 1` makes the quotient
`0 / 0` (for `n = 1` the numerator is exactly `0`; for `n = 0` already the
mean is `NaN`), i.e. `NaN`; the model returns `none` in that case.  The
standard deviation itself is `Real.sqrt` of this value, which preserves
both equality and `NaN`-ness, so all comparisons are stated on the
radicand. -/
def torchVar (l : List ℚ) : Option ℚ :=
  if l.length ≤ 1 then none
  else some (((l.map (fun v => (v - torchMean l) ^ 2)).sum) / ((l.length : ℚ) - 1))

/-- Ascending sort of the tensor entries, as performed internally by
`torch.median`. -/
def sortVals (l : List ℚ) : List ℚ :=
  l.insertionSort (· ≤ ·)

/-- Model of `torch.median(vals)` for a 1-D tensor: the element at index
`(n - 1) / 2` of the sorted entries.  For odd `n` this is the middle
element; for even `n` torch documents that "the lower of the two medians
is returned". -/
def torchMedian (l : List ℚ) : ℚ :=
  (sortVals l).getD ((l.length - 1) / 2) 0

/-- Modelled from the spec: the sample mean of a vector of values. -/
def sampleMean (l : List ℚ) : ℚ :=
  (l.foldl (· + ·) 0) / l.length

/-- Modelled from the spec: the radicand of the sample (Bessel-corrected,
`n - 1` denominator) standard deviation, undefined (`none`) for fewer
than two values. -/
def sampleVar (l : List ℚ) : Option ℚ :=
  if 2 ≤ l.length then
    some (((l.map (fun v => (v - sampleMean l) ^ 2)).sum) / ((l.length : ℚ) - 1))
  else none

/-- Modelled from the spec: the sample median — the middle element of the
sorted values for odd count, the average of the two middle elements for
even count. -/
def sampleMedian (l : List ℚ) : ℚ :=
  let s := sortVals l
  if l.length % 2 = 1 then s.getD (l.length / 2) 0
  else (s.getD (l.length / 2 - 1) 0 + s.getD (l.length / 2) 0) / 2

/-- Errors raised by the engine.  `keyError` models a Python `KeyError`
(failed dictionary lookup), `valueError` a `ValueError`; the spec calls
both "configuration errors". -/
inductive Err where
  | keyError : Err
  | valueError : Err
deriving DecidableEq, Repr

/-- Result dictionary of `getAmortizedLeakage`: the central statistic
(under its dictionary key, `"Mean"` or `"Median"`), the radicand of the
reported standard deviation (`none` = `NaN`), and the trial count. -/
structure AmortResult where
  stat : ℚ
  label : String
  var : Option ℚ
  num_trials : ℕ
deriving DecidableEq, Repr

/-- Observable events of one `getAmortizedLeakage` run, used to express
in which order trials execute and errors are raised. -/
inductive AmortEvent where
  | trialRun : ℕ → ℚ → AmortEvent
  | errorRaised : AmortEvent
deriving DecidableEq, Repr

/-- The trial loop of `getAmortizedLeakage` (lines 226-230): `vals[i]`
is the `LeakageSample` of trial `i`.  The per-trial value is supplied by
the oracle `f`, abstracting `calcLeak`'s stochastic training. -/
def amortVals (f : ℕ → ℚ) (num_trials : ℕ) : List ℚ :=
  (List.range num_trials).map f

/-- Model of `getAmortizedLeakage` (lines 213-244) after preprocessing:
run `num_trials` trials, then dispatch on `method`.  The first component
is the event trace: one `trialRun` event per executed trial, in order,
followed by `errorRaised` iff the method dispatch fails.  The dispatch
happens only after the whole trial loop, as in the source. -/
def getAmortizedLeakage (f : ℕ → ℚ) (num_trials : ℕ) (method : String) :
    List AmortEvent × Except Err AmortResult :=
  let vals := amortVals f num_trials
  let trace := (List.range num_trials).map (fun i => AmortEvent.trialRun i (f i))
  if method = "mean" then
    (trace, Except.ok ⟨torchMean vals, "Mean", torchVar vals, num_trials⟩)
  else if method = "median" then
    (trace, Except.ok ⟨torchMedian vals, "Median", torchVar vals, num_trials⟩)
  else
    (trace ++ [AmortEvent.errorRaised], Except.error Err.valueError)

example : torchMean [1, 2, 3] = 2 := by norm_num [torchMean]
example : torchMedian [3, 1, 2] = 2 := by norm_num [torchMedian, sortVals]
example : torchMedian [1, 0] = 0 := by norm_num [torchMedian, sortVals]
example : sampleMedian [1, 0] = 1 / 2 := by norm_num [sampleMedian, sortVals]
example : torchVar [0, 1] = some (1 / 2) := by norm_num [torchVar, torchMean]
example : torchVar [5] = none := by norm_num [torchVar]

/-! ### Batch slicing of one training epoch (`train`, lines 127-153) -/

/-- Model of `batches = math.ceil(len(x) / self.train_params["batch_size"])`
(line 127): the ceiling of the true division of the sample count by the
batch size. -/
def batchesOf (n bs : ℕ) : ℕ :=
  ⌈(n : ℚ) / (bs : ℚ)⌉₊

/-- One epoch's inner loop (lines 135-153) viewed on index positions:
running `b` further iterations from offset `start`, each iteration
takes the slice `x[start : start + bs]` — i.e. the index positions
`start, …, min (start + bs) n - 1` — and then advances `start` by `bs`. -/
def trainSlices (n bs : ℕ) : ℕ → ℕ → List (List ℕ)
  | 0, _ => []
  | b + 1, start => List.range' start (min bs (n - start)) :: trainSlices n bs b (start + bs)

/-- The index positions of the `batchesOf n bs` sequential slices
processed in one training epoch over `n` samples. -/
def epochSlices (n bs : ℕ) : List (List ℕ) :=
  trainSlices n bs (batchesOf n bs) 0

/-! ### Batched evaluation (`calcLambda`, lines 162-177) -/

/-- Model of the slice assignment `y_pred[start : start + len(vals)] = vals`:
the buffer keeps its first `start` entries, the written values follow, and
the tail of the buffer after the written region is kept.  In `calcLambda`
the written values always have exactly the length of the addressed slice. -/
def writeSlice (buf : List ℚ) (start : ℕ) (vals : List ℚ) : List ℚ :=
  buf.take start ++ vals ++ buf.drop (start + vals.length)

/-- The evaluation loop of `calcLambda` (lines 169-172): for each of the
remaining `b` batches, apply the model to the slice
`x[start : start + bs]` and write the outputs into the buffer at offset
`start`; then advance `start` by `bs`.  The attacker model maps each
token sequence to a score, so a batch's output is the elementwise image
of the batch (same length as the batch). -/
def evalLoop (model : α → ℚ) (bs : ℕ) (x : List α) :
    ℕ → ℕ → List ℚ → List ℚ
  | 0, _, buf => buf
  | b + 1, start, buf =>
      evalLoop model bs x b (start + bs)
        (writeSlice buf start (((x.drop start).take bs).map model))

/-- Model of `calcLambda` (lines 162-177): allocate a zero buffer shaped
like `y` (`torch.zeros_like(y)`), run `math.ceil(len(x) / bs)` sequential
batches writing model outputs at the corresponding offsets, optionally
binarize at the `0.5` cutoff (`y_pred > 0.5` followed by a cast of the
booleans to floats), cast `y` to float (the identity here), and apply the
evaluation metric to `(y_pred, y)`. -/
def calcLambda (model : α → ℚ) (bs : ℕ) (threshold : Bool)
    (metric : List ℚ → List ℚ → ℚ) (x : List α) (y : List ℚ) : ℚ :=
  let y_pred := evalLoop model bs x (batchesOf x.length bs) 0 (List.replicate y.length 0)
  let y_pred := if threshold then y_pred.map (fun v => if 1 / 2 < v then 1 else 0) else y_pred
  metric y_pred y

example : batchesOf 5 2 = 3 := by norm_num [batchesOf, Nat.ceil_eq_iff]

example : epochSlices 5 2 = [[0, 1], [2, 3], [4]] := by
  have h : batchesOf 5 2 = 3 := by norm_num [batchesOf, Nat.ceil_eq_iff]
  rw [epochSlices, h]
  decide

/-! ### Attacker lifecycle and orchestration as a state machine

The mutable attributes of the `LIC` object are modelled as an explicit
state.  Attacker models live in an object store (`heap`, a list whose
indices are object addresses); `attacker_D` / `attacker_M` are the
attribute slots holding the current addresses.  This makes object
identity observable: `copy.deepcopy` allocates a new address with equal
contents, and `optimizer.step()` mutates the parameter storage behind
one address in place.  The numeric content of the attacker models (a
pluggable external architecture) is abstracted to a tag. -/

/-- Which attacker a `train` call updates (`attacker_mode ∈ {"D", "M"}`). -/
inductive Mode where
  | D : Mode
  | M : Mode
deriving DecidableEq, Repr

/-- The `eval_metric` argument of the constructor: a callable (identified
by an opaque token), a string identifier, or a value of any other type. -/
inductive MetricArg where
  | callable : ℕ → MetricArg
  | str : String → MetricArg
  | other : MetricArg
deriving DecidableEq, Repr

/-- The resolved `self.eval_metric`: either one of the built-in entries of
`self.eval_functions` (identified by its key) or an injected callable. -/
inductive MetricFn where
  | builtin : String → MetricFn
  | custom : ℕ → MetricFn
deriving DecidableEq, Repr

/-- Contents of one attacker-model object: the vocabulary size its
constructor received, and an abstract tag standing for the current
contents of its parameter storage. -/
structure ModelData where
  vocabSize : ℕ
  params : ℕ
deriving DecidableEq, Repr

/-- An input tensor, abstracted to an identity plus its leading dimension
(`len(x)`), which is all the engine inspects besides passing it to the
attacker models. -/
structure TensorRef where
  id : ℕ
  len : ℕ
deriving DecidableEq, Repr

/-- The `train_params` configuration dictionary. -/
structure TrainParams where
  learning_rate : ℚ
  loss_function : String
  epochs : ℕ
  batch_size : ℕ
deriving DecidableEq, Repr

/-- The mutable state of a `LIC` object.  `vocab_size` is the attribute
set by `captionPreprocess` (line 208); it is meaningful only once a
measurement session has started. -/
structure LICState where
  heap : List ModelData
  attacker_D : Option ℕ
  attacker_M : Option ℕ
  vocab_size : ℕ
  train_params : TrainParams
  eval_metric : MetricFn
  threshold : Bool
  model_attacker_trained : Bool
deriving DecidableEq, Repr

/-- Keys of `self.eval_functions` (lines 66-70). -/
def recognizedEval : List String :=
  ["accuracy", "mse", "bce"]

/-- Keys of `self.loss_functions` (lines 61-65).  `lookupLoss` is the
dictionary lookup `self.loss_functions[name]` (line 122): it succeeds
exactly on recognized keys and raises `KeyError` otherwise. -/
def recognizedLoss : List String :=
  ["mse", "cross-entropy", "bce"]

/-- Whether `self.loss_functions[name]` succeeds. -/
def lookupLoss (name : String) : Bool :=
  name ∈ recognizedLoss

/-- Model of `initEvalMetric` (lines 186-195): a callable is installed
as-is; a string is looked up among the recognized evaluation metrics and
raises `ValueError` if absent; any other value raises `ValueError`. -/
def initEvalMetric (metric : MetricArg) : Except Err MetricFn :=
  match metric with
  | MetricArg.callable f => Except.ok (MetricFn.custom f)
  | MetricArg.str s =>
      if s ∈ recognizedEval then Except.ok (MetricFn.builtin s)
      else Except.error Err.valueError
  | MetricArg.other => Except.error Err.valueError

/-- Model of `__init__` (lines 15-78): store the configuration, then
resolve the evaluation metric via `initEvalMetric`, whose exception (if
any) aborts construction.  The loss identifier is stored unexamined. -/
def licInit (train_params : TrainParams) (metric : MetricArg) (threshold : Bool) :
    Except Err LICState :=
  match initEvalMetric metric with
  | Except.error e => Except.error e
  | Except.ok m =>
      Except.ok
        { heap := []
          attacker_D := none
          attacker_M := none
          vocab_size := 0
          train_params := train_params
          eval_metric := m
          threshold := threshold
          model_attacker_trained := false }

/-- Read the object stored at address `addr`. -/
def heapGet (σ : LICState) (addr : ℕ) : ModelData :=
  σ.heap.getD addr ⟨0, 0⟩

/-- In-place mutation of the parameter storage of the object at address
`addr` (the effect of optimizer steps on one attacker model). -/
def writeParams (σ : LICState) (addr : ℕ) (g : ℕ → ℕ) : LICState :=
  { σ with
    heap := σ.heap.set addr
      { heapGet σ addr with params := g (heapGet σ addr).params } }

/-- Model of `defineModel` (lines 179-184): inject `self.vocab_size` into
the constructor parameters, construct a fresh attacker (a new object
whose initial parameter contents are the abstract tag `fresh`, drawn from
the constructor's random initialization), bind it to `attacker_D`, and
bind `attacker_M` to `copy.deepcopy(attacker_D)` — a second new object
with equal contents at a distinct address. -/
def defineModel (σ : LICState) (fresh : ℕ) : LICState :=
  { σ with
    heap := σ.heap ++ [⟨σ.vocab_size, fresh⟩, ⟨σ.vocab_size, fresh⟩]
    attacker_D := some σ.heap.length
    attacker_M := some (σ.heap.length + 1) }

/-- The address held by the attribute `attacker_D` or `attacker_M`. -/
def attackerAddr (σ : LICState) (mode : Mode) : ℕ :=
  (match mode with
   | Mode.D => σ.attacker_D
   | Mode.M => σ.attacker_M).getD 0

/-- Model of `train` (lines 113-160): first call `defineModel`, then
resolve the loss function from `self.loss_functions` — a failed lookup
raises `KeyError` there, before any batch is processed — and otherwise
run `epochs` epochs of `batchesOf n batch_size` batches, each performing
one optimizer step on the selected attacker's parameters.  One abstract
gradient step is `gstep`; the epoch/batch loop applies it once per
batch.  The function returns the state after the call together with the
raised exception, if any. -/
def train (σ : LICState) (fresh : ℕ) (gstep : ℕ → ℕ) (n : ℕ) (mode : Mode) :
    LICState × Option Err :=
  let σ1 := defineModel σ fresh
  if lookupLoss σ1.train_params.loss_function then
    let steps := σ1.train_params.epochs * batchesOf n σ1.train_params.batch_size
    (writeParams σ1 (attackerAddr σ1 mode) (fun p => gstep^[steps] p), none)
  else
    (σ1, some Err.keyError)

/-- Evaluation of one attacker at the orchestration level: `calcLambda`
reads the model object behind `addr` and produces a scalar score from
it, the input data and the targets, through the configured evaluation
metric.  The batched computation itself is modelled in detail by
`calcLambda` above; here it is abstracted by the oracle `evalScore`. -/
def calcLambdaAt (σ : LICState) (evalScore : MetricFn → ModelData → TensorRef → TensorRef → ℚ)
    (addr : ℕ) (x y : TensorRef) : ℚ :=
  evalScore σ.eval_metric (heapGet σ addr) x y

/-- Model of `calcLeak` (lines 80-111): train attacker D on `data`,
evaluate it (`lambda_d`), train attacker M on `pred`, evaluate it
(`lambda_m`), return `lambda_m - lambda_d`, divided by
`lambda_m + lambda_d` when `normalized` is set.  A training exception
propagates.  `fresh1`, `fresh2` are the abstract random initializations
of the two `defineModel` calls. -/
def calcLeak (σ : LICState) (evalScore : MetricFn → ModelData → TensorRef → TensorRef → ℚ)
    (gstep : ℕ → ℕ) (fresh1 fresh2 : ℕ) (feat data pred : TensorRef)
    (normalized : Bool) : LICState × Except Err ℚ :=
  match train σ fresh1 gstep data.len Mode.D with
  | (σ1, some e) => (σ1, Except.error e)
  | (σ1, none) =>
      let lambda_d := calcLambdaAt σ1 evalScore (attackerAddr σ1 Mode.D) data feat
      match train σ1 fresh2 gstep pred.len Mode.M with
      | (σ2, some e) => (σ2, Except.error e)
      | (σ2, none) =>
          let lambda_m := calcLambdaAt σ2 evalScore (attackerAddr σ2 Mode.M) pred feat
          let leakage_amp := lambda_m - lambda_d
          (σ2, Except.ok (if normalized then leakage_amp / (lambda_m + lambda_d) else leakage_amp))

/-- Model of `captionPreprocess` (lines 197-211) as consumed by the
session: the external `CaptionProcessor` collaborator produces two
vocabularies (of sizes `lenModelVocab` and `lenHumanVocab`) and the
tokenized caption tensors; the engine itself only sets
`self.vocab_size = max(len(model_vocab), len(human_vocab))` (line 208). -/
def captionPreprocess (σ : LICState) (lenModelVocab lenHumanVocab : ℕ)
    (model_cap human_cap : TensorRef) : LICState × TensorRef × TensorRef :=
  ({ σ with vocab_size := max lenModelVocab lenHumanVocab }, model_cap, human_cap)

/-- The trial loop of `getAmortizedLeakage` (lines 227-229) acting on the
engine state: trial `i` invokes `calcLeak` on the state left by the
previous trials, with per-trial random initializations `freshs i`. -/
def sessionTrials (evalScore : MetricFn → ModelData → TensorRef → TensorRef → ℚ)
    (gstep : ℕ → ℕ) (freshs : ℕ → ℕ × ℕ) (feat data pred : TensorRef)
    (normalized : Bool) : ℕ → LICState → LICState
  | 0, σ => σ
  | k + 1, σ =>
      (calcLeak (sessionTrials evalScore gstep freshs feat data pred normalized k σ)
        evalScore gstep (freshs k).1 (freshs k).2 feat data pred normalized).1

/-! ### Helper lemmas about batch counts and slices -/

theorem le_batchesOf_mul (n bs : ℕ) (hbs : 1 ≤ bs) : n ≤ batchesOf n bs * bs := by
  have hbs0 : (0 : ℚ) < bs := by exact_mod_cast hbs
  have h := Nat.le_ceil ((n : ℚ) / bs)
  rw [div_le_iff₀ hbs0] at h
  exact_mod_cast h

theorem lt_of_lt_batchesOf {n bs i : ℕ} (hbs : 1 ≤ bs) (h : i < batchesOf n bs) :
    i * bs < n := by
  have hbs0 : (0 : ℚ) < bs := by exact_mod_cast hbs
  have h2 : (i : ℚ) < n / bs := Nat.lt_ceil.mp h
  rw [lt_div_iff₀ hbs0] at h2
  exact_mod_cast h2

theorem trainSlices_length (n bs : ℕ) : ∀ b s, (trainSlices n bs b s).length = b := by
  intro b
  induction b with
  | zero => intro s; rfl
  | succ b ih => intro s; simp [trainSlices, ih]

theorem trainSlices_flatten (n bs : ℕ) :
    ∀ b s, (trainSlices n bs b s).flatten = List.range' s (min (b * bs) (n - s)) := by
  intro b
  induction b with
  | zero => intro s; simp [trainSlices]
  | succ b ih =>
      intro s
      have hsm : (b + 1) * bs = b * bs + bs := by ring
      rw [trainSlices, List.flatten_cons, ih (s + bs)]
      rcases le_or_lt bs (n - s) with hb | hb
      · rw [min_eq_left hb]
        have h1 := List.range'_append s bs (min (b * bs) (n - (s + bs))) 1
        rw [one_mul] at h1
        rw [h1]
        congr 1
        omega
      · have h2 : min (b * bs) (n - (s + bs)) = 0 := by omega
        rw [h2]
        simp only [List.range'_zero, List.append_nil]
        congr 1
        omega

theorem trainSlices_getD (n bs : ℕ) :
    ∀ b s i, i < b →
      (trainSlices n bs b s).getD i [] =
        List.range' (s + i * bs) (min bs (n - (s + i * bs))) := by
  intro b
  induction b with
  | zero => intro s i hi; omega
  | succ b ih =>
      intro s i hi
      cases i with
      | zero => simp [trainSlices]
      | succ i =>
          rw [trainSlices, List.getD_cons_succ, ih (s + bs) i (by omega),
            show s + bs + i * bs = s + (i + 1) * bs from by ring]

theorem range_map_getD {α : Type} (d : α) :
    ∀ l : List α, (List.range l.length).map (fun i => l.getD i d) = l := by
  intro l
  induction l with
  | nil => rfl
  | cons a t ih =>
      rw [List.length_cons, List.range_succ_eq_map, List.map_cons, List.map_map]
      have h : ((fun i => (a :: t).getD i d) ∘ Nat.succ) = fun i => t.getD i d := by
        funext i
        simp [List.getD_cons_succ]
      rw [h, ih]
      rfl

theorem evalLoop_eq {α : Type} (model : α → ℚ) (bs : ℕ) (x : List α) :
    ∀ b s (buf : List ℚ), buf.length = x.length → x.length ≤ s + b * bs →
      evalLoop model bs x b s buf = buf.take s ++ (x.map model).drop s := by
  intro b
  induction b with
  | zero =>
      intro s buf hlen hcov
      rw [evalLoop, List.take_of_length_le (by omega),
        List.drop_eq_nil_of_le (by simp; omega), List.append_nil]
  | succ b ih =>
      intro s buf hlen hcov
      rw [evalLoop]
      set chunk := ((x.drop s).take bs).map model with hchunk
      have hclen : chunk.length = min bs (x.length - s) := by
        simp [hchunk]
      have hblen : (writeSlice buf s chunk).length = x.length := by
        simp only [writeSlice, List.length_append, List.length_take, List.length_drop, hlen,
          hclen]
        omega
      have hstep : (b + 1) * bs = b * bs + bs := by ring
      rw [ih (s + bs) _ hblen (by omega)]
      have key : (writeSlice buf s chunk).take (s + bs) = buf.take s ++ chunk := by
        rcases le_or_lt (s + bs) buf.length with hA | hB
        · refine List.take_left' ?_
          simp only [List.length_append, List.length_take, hlen, hclen]
          omega
        · have hdrop : buf.drop (s + chunk.length) = [] :=
            List.drop_eq_nil_of_le (by rw [hclen]; omega)
          rw [writeSlice, hdrop, List.append_nil]
          refine List.take_of_length_le ?_
          simp only [List.length_append, List.length_take, hlen, hclen]
          omega
      have hsplit : (x.map model).drop s = chunk ++ (x.map model).drop (s + bs) := by
        have h1 : chunk = ((x.map model).drop s).take bs := by
          rw [hchunk, List.map_take, List.map_drop]
        rw [h1, ← List.drop_drop]
        exact (List.take_append_drop bs ((x.map model).drop s)).symm
      rw [key, hsplit, List.append_assoc]

/-! ### Claim theorems -/

/-- C3: one training epoch over `n` samples with batch size `bs ≥ 1`
processes exactly `ceil(n / bs)` sequential slices; the slices partition
the index positions `0, …, n - 1` in order, so every sample is visited
exactly once per epoch (in particular, gathering any reordered dataset
of length `n` along the slices yields that dataset exactly); every slice
except possibly the last has length exactly `bs`; and for `n = 1023`,
`bs = 1024` the epoch is a single batch of the 1023 samples. -/
theorem claim_C3_epoch_batching (n bs : ℕ) (hbs : 1 ≤ bs) :
    (epochSlices n bs).length = batchesOf n bs ∧
    (epochSlices n bs).flatten = List.range n ∧
    (∀ i, i + 1 < batchesOf n bs → ((epochSlices n bs).getD i []).length = bs) ∧
    (∀ x : List ℚ, x.length = n →
      ((epochSlices n bs).map (fun sl => sl.map (fun j => x.getD j 0))).flatten = x) ∧
    epochSlices 1023 1024 = [List.range 1023] := by
  have hflat : (epochSlices n bs).flatten = List.range n := by
    rw [epochSlices, trainSlices_flatten]
    rw [Nat.sub_zero, min_eq_right (le_batchesOf_mul n bs hbs), List.range_eq_range']
  refine ⟨trainSlices_length n bs _ 0, hflat, ?_, ?_, ?_⟩
  · intro i hi
    rw [epochSlices, trainSlices_getD n bs _ 0 i (by omega), List.length_range']
    have h1 : (i + 1) * bs < n := lt_of_lt_batchesOf hbs hi
    have h2 : (i + 1) * bs = i * bs + bs := by ring
    omega
  · intro x hx
    rw [← List.map_flatten, hflat, ← hx, range_map_getD]
  · have h1 : batchesOf 1023 1024 = 1 := by
      norm_num [batchesOf, Nat.ceil_eq_iff]
    rw [epochSlices, h1]
    rw [show trainSlices 1023 1024 1 0 = [List.range' 0 (min 1024 (1023 - 0))] from rfl]
    rw [show min 1024 (1023 - 0) = 1023 from by omega, List.range_eq_range']

/-- Witness for C3 at `n = 5`, `bs = 2`. -/
theorem claim_C3_epoch_batching_witness :
    (epochSlices 5 2).flatten = List.range 5 ∧
    ((epochSlices 5 2).getD 0 []).length = 2 := by
  have h := claim_C3_epoch_batching 5 2 (by decide)
  exact ⟨h.2.1, h.2.2.1 0 (by
    have h1 : batchesOf 5 2 = 3 := by norm_num [batchesOf, Nat.ceil_eq_iff]
    omega)⟩

/-- C9: `calcLambda` iterates sequential batches of the configured batch
size without shuffling, writing each batch's model output into the
buffer offset of that batch, so the final buffer is exactly the model
applied to the samples in their given order — and therefore the returned
LambdaScore is a function of the model and the data alone: two calls on
the same model and the same `(x, y)` return the same score. -/
theorem claim_C9_deterministic_eval {α : Type} (model : α → ℚ) (bs : ℕ) (threshold : Bool)
    (metric : List ℚ → List ℚ → ℚ) (x : List α) (y : List ℚ)
    (hbs : 1 ≤ bs) (hxy : x.length = y.length) :
    calcLambda model bs threshold metric x y =
      metric (if threshold then (x.map model).map (fun v => if 1 / 2 < v then 1 else 0)
              else x.map model) y ∧
    calcLambda model bs threshold metric x y = calcLambda model bs threshold metric x y := by
  have he := evalLoop_eq model bs x (batchesOf x.length bs) 0 (List.replicate y.length 0)
    (by simp [hxy]) (by simpa using le_batchesOf_mul x.length bs hbs)
  simp only [List.take_zero, List.drop_zero, List.nil_append] at he
  exact ⟨by rw [calcLambda, he], rfl⟩

/-- Witness for C9 at a concrete model, batch size and dataset. -/
theorem claim_C9_deterministic_eval_witness :
    calcLambda (fun q : ℚ => q) 2 true (fun p t => p.sum + t.sum) [1, 0, 1] [0, 0, 0] =
      (fun p t : List ℚ => p.sum + t.sum)
        ((([1, 0, 1] : List ℚ).map (fun q : ℚ => q)).map
          (fun v => if 1 / 2 < v then 1 else 0)) [0, 0, 0] :=
  (claim_C9_deterministic_eval (fun q : ℚ => q) 2 true (fun p t => p.sum + t.sum)
    [1, 0, 1] [0, 0, 0] (by decide) rfl).1

theorem torchMean_eq_sampleMean (l : List ℚ) : torchMean l = sampleMean l := by
  rw [torchMean, sampleMean, List.sum_eq_foldl]

theorem torchVar_eq_sampleVar (l : List ℚ) : torchVar l = sampleVar l := by
  rw [torchVar, sampleVar]
  rcases le_or_lt l.length 1 with h | h
  · rw [if_pos h, if_neg (by omega)]
  · rw [if_neg (by omega), if_pos (by omega), torchMean_eq_sampleMean]

theorem torchMedian_odd (l : List ℚ) (h : l.length % 2 = 1) :
    torchMedian l = sampleMedian l := by
  rw [torchMedian, sampleMedian, if_pos h,
    show (l.length - 1) / 2 = l.length / 2 from by omega]

theorem amortVals_length (f : ℕ → ℚ) (n : ℕ) : (amortVals f n).length = n := by
  simp [amortVals]

/-- C2 (amended): over trial values `v_0, …, v_{n-1}`, method `"mean"`
returns exactly the sample mean, the sample (Bessel-corrected, `n - 1`
denominator) standard deviation and the trial count; method `"median"`
returns the same standard deviation and trial count, but its central
statistic is `torch.median`'s lower median — the element at index
`(n - 1) / 2` of the sorted values — which coincides with the sample
median for odd `n` (for even `n` it is the lower of the two middle
values, not their average; see the counterexample).  Standard deviations
are compared through their radicands, which `Real.sqrt` maps to the
respective standard deviations. -/
theorem claim_C2_aggregation (f : ℕ → ℚ) (n : ℕ) :
    getAmortizedLeakage f n "mean" =
      ((List.range n).map (fun i => AmortEvent.trialRun i (f i)),
        Except.ok ⟨sampleMean (amortVals f n), "Mean", sampleVar (amortVals f n), n⟩) ∧
    getAmortizedLeakage f n "median" =
      ((List.range n).map (fun i => AmortEvent.trialRun i (f i)),
        Except.ok ⟨torchMedian (amortVals f n), "Median", sampleVar (amortVals f n), n⟩) ∧
    torchMedian (amortVals f n) = (sortVals (amortVals f n)).getD ((n - 1) / 2) 0 ∧
    (n % 2 = 1 → torchMedian (amortVals f n) = sampleMedian (amortVals f n)) := by
  refine ⟨?_, ?_, ?_, ?_⟩
  · rw [getAmortizedLeakage, if_pos rfl, torchMean_eq_sampleMean, torchVar_eq_sampleVar]
  · rw [getAmortizedLeakage, if_neg (by decide), if_pos rfl, torchVar_eq_sampleVar]
  · rw [torchMedian, amortVals_length]
  · intro h
    exact torchMedian_odd _ (by rwa [amortVals_length])

/-- Witness for C2's odd-count median clause at three trials. -/
theorem claim_C2_aggregation_witness :
    torchMedian (amortVals (fun i => (i : ℚ)) 3) =
      sampleMedian (amortVals (fun i => (i : ℚ)) 3) :=
  (claim_C2_aggregation (fun i => (i : ℚ)) 3).2.2.2 (by decide)

/-- Counterexample to C2 as stated: with the two trial values `0` and
`1`, method `"median"` returns `0` (torch's lower median), while the
sample median of `[0, 1]` is `1/2`. -/
theorem claim_C2_counterexample :
    (getAmortizedLeakage (fun i => (i : ℚ)) 2 "median").2 =
      Except.ok ⟨0, "Median", some (1 / 2), 2⟩ ∧
    sampleMedian (amortVals (fun i => (i : ℚ)) 2) = 1 / 2 ∧
    (0 : ℚ) ≠ 1 / 2 := by
  have hv : amortVals (fun i => (i : ℚ)) 2 = [0, 1] := by
    norm_num [amortVals, List.range_succ]
  refine ⟨?_, ?_, by norm_num⟩
  · rw [getAmortizedLeakage, if_neg (by decide), if_pos rfl]
    rw [show (amortVals (fun i : ℕ => (i : ℚ)) 2) = [0, 1] from hv]
    norm_num [torchMedian, sortVals, torchVar, torchMean, List.insertionSort,
      List.orderedInsert]
  · rw [hv]
    norm_num [sampleMedian, sortVals, List.insertionSort, List.orderedInsert]

/-- C6: any unrecognized aggregation method makes `getAmortizedLeakage`
raise a `ValueError` (a configuration error) and return no numeric
result — but only after all `n` trials have executed: the event trace is
the `n` trial events, in order, followed by the error. -/
theorem claim_C6_unknown_method (f : ℕ → ℚ) (n : ℕ) (method : String)
    (h1 : method ≠ "mean") (h2 : method ≠ "median") :
    getAmortizedLeakage f n method =
      ((List.range n).map (fun i => AmortEvent.trialRun i (f i)) ++ [AmortEvent.errorRaised],
        Except.error Err.valueError) ∧
    ((List.range n).map (fun i => AmortEvent.trialRun i (f i))).length = n := by
  rw [getAmortizedLeakage, if_neg h1, if_neg h2]
  simp

/-- Witness for C6 at method `"mode"` with two trials. -/
theorem claim_C6_unknown_method_witness :
    getAmortizedLeakage (fun i => (i : ℚ)) 2 "mode" =
      ((List.range 2).map (fun i => AmortEvent.trialRun i ((i : ℚ))) ++
        [AmortEvent.errorRaised], Except.error Err.valueError) :=
  (claim_C6_unknown_method (fun i => (i : ℚ)) 2 "mode" (by decide) (by decide)).1

/-- C10: with a single trial, the aggregate reported for method `"mean"`
carries a `NaN` standard deviation (the Bessel-corrected estimator
divides by `n - 1 = 0`, with a zero numerator), modelled as `none`. -/
theorem claim_C10_single_trial_nan_std (f : ℕ → ℚ) :
    getAmortizedLeakage f 1 "mean" =
      ([AmortEvent.trialRun 0 (f 0)],
        Except.ok ⟨torchMean (amortVals f 1), "Mean", none, 1⟩) ∧
    torchVar (amortVals f 1) = none := by
  have hnone : torchVar (amortVals f 1) = none := by
    rw [torchVar, if_pos (by rw [amortVals_length])]
  refine ⟨?_, hnone⟩
  rw [getAmortizedLeakage, if_pos rfl, hnone]
  simp [List.range_succ]

/-! ### Helper lemmas about the state machine -/

theorem defineModel_heap_length (σ : LICState) (fresh : ℕ) :
    (defineModel σ fresh).heap.length = σ.heap.length + 2 := by
  simp [defineModel]

theorem heapGet_defineModel_D (σ : LICState) (fresh : ℕ) :
    heapGet (defineModel σ fresh) σ.heap.length = ⟨σ.vocab_size, fresh⟩ := by
  rw [heapGet, defineModel, List.getD_eq_getElem?_getD,
    List.getElem?_append_right (le_refl _)]
  simp

theorem heapGet_defineModel_M (σ : LICState) (fresh : ℕ) :
    heapGet (defineModel σ fresh) (σ.heap.length + 1) = ⟨σ.vocab_size, fresh⟩ := by
  rw [heapGet, defineModel, List.getD_eq_getElem?_getD,
    List.getElem?_append_right (by omega)]
  simp

theorem heapGet_writeParams_ne (σ : LICState) (addr addr' : ℕ) (g : ℕ → ℕ)
    (h : addr ≠ addr') :
    heapGet (writeParams σ addr g) addr' = heapGet σ addr' := by
  rw [heapGet, writeParams, List.getD_eq_getElem?_getD, List.getElem?_set_ne h,
    ← List.getD_eq_getElem?_getD, heapGet]

theorem heapGet_writeParams_self (σ : LICState) (addr : ℕ) (g : ℕ → ℕ)
    (h : addr < σ.heap.length) :
    heapGet (writeParams σ addr g) addr =
      { heapGet σ addr with params := g (heapGet σ addr).params } := by
  rw [heapGet, writeParams, List.getD_eq_getElem?_getD, List.getElem?_set_self h]
  rfl

theorem train_train_params (σ : LICState) (fresh : ℕ) (gstep : ℕ → ℕ) (n : ℕ) (mode : Mode) :
    (train σ fresh gstep n mode).1.train_params = σ.train_params := by
  rw [train]
  split <;> rfl

theorem train_vocab (σ : LICState) (fresh : ℕ) (gstep : ℕ → ℕ) (n : ℕ) (mode : Mode) :
    (train σ fresh gstep n mode).1.vocab_size = σ.vocab_size := by
  rw [train]
  split <;> rfl

theorem defineModel_train_params (σ : LICState) (fresh : ℕ) :
    (defineModel σ fresh).train_params = σ.train_params :=
  rfl

theorem train_none (σ : LICState) (fresh : ℕ) (gstep : ℕ → ℕ) (n : ℕ) (mode : Mode)
    (h : lookupLoss σ.train_params.loss_function = true) :
    (train σ fresh gstep n mode).2 = none := by
  rw [train,
    if_pos (show lookupLoss (defineModel σ fresh).train_params.loss_function = true from h)]

theorem calcLeak_vocab (σ : LICState)
    (es : MetricFn → ModelData → TensorRef → TensorRef → ℚ) (gstep : ℕ → ℕ)
    (f1 f2 : ℕ) (feat data pred : TensorRef) (normalized : Bool) :
    (calcLeak σ es gstep f1 f2 feat data pred normalized).1.vocab_size = σ.vocab_size := by
  rw [calcLeak]
  rcases h1 : train σ f1 gstep data.len Mode.D with ⟨σ1, e1⟩
  have hv1 : σ1.vocab_size = σ.vocab_size := by
    rw [← train_vocab σ f1 gstep data.len Mode.D, h1]
  cases e1 with
  | some e => simpa using hv1
  | none =>
      dsimp only
      rcases h2 : train σ1 f2 gstep pred.len Mode.M with ⟨σ2, e2⟩
      have hv2 : σ2.vocab_size = σ1.vocab_size := by
        rw [← train_vocab σ1 f2 gstep pred.len Mode.M, h2]
      cases e2 <;> simp [hv2, hv1]

theorem sessionTrials_vocab (es : MetricFn → ModelData → TensorRef → TensorRef → ℚ)
    (gstep : ℕ → ℕ) (freshs : ℕ → ℕ × ℕ) (feat data pred : TensorRef) (normalized : Bool) :
    ∀ (k : ℕ) (σ : LICState),
      (sessionTrials es gstep freshs feat data pred normalized k σ).vocab_size =
        σ.vocab_size := by
  intro k
  induction k with
  | zero => intro σ; rfl
  | succ k ih =>
      intro σ
      rw [sessionTrials, calcLeak_vocab, ih]

/-- C4: every `train` call — for either mode, on the success path and on
the failed-loss-lookup path alike — first rebinds both `attacker_D` and
`attacker_M` to two freshly allocated objects (the two new addresses at
the top of the store, so any previously held attacker object is
discarded), both constructed with vocabulary size `σ.vocab_size`; and
that vocabulary size is the one fixed by preprocessing for the whole
measurement session: `captionPreprocess` sets it to the maximum of the
two vocabulary lengths, and neither `train` nor any number of
`calcLeak` trials changes it. -/
theorem claim_C4_reset_both_attackers (σ : LICState) (fresh : ℕ) (gstep : ℕ → ℕ) (n : ℕ)
    (mode : Mode) :
    (train σ fresh gstep n mode).1.attacker_D = some σ.heap.length ∧
    (train σ fresh gstep n mode).1.attacker_M = some (σ.heap.length + 1) ∧
    (heapGet (train σ fresh gstep n mode).1 σ.heap.length).vocabSize = σ.vocab_size ∧
    (heapGet (train σ fresh gstep n mode).1 (σ.heap.length + 1)).vocabSize = σ.vocab_size ∧
    (∀ a, σ.attacker_D = some a → a < σ.heap.length →
      (train σ fresh gstep n mode).1.attacker_D ≠ some a) ∧
    (∀ a, σ.attacker_M = some a → a < σ.heap.length →
      (train σ fresh gstep n mode).1.attacker_M ≠ some a) ∧
    (train σ fresh gstep n mode).1.vocab_size = σ.vocab_size ∧
    (∀ lm lh mc hc, ((captionPreprocess σ lm lh mc hc).1).vocab_size = max lm lh) ∧
    (∀ es gs freshs feat data pred norm k lm lh mc hc,
      (sessionTrials es gs freshs feat data pred norm k
        (captionPreprocess σ lm lh mc hc).1).vocab_size = max lm lh) := by
  have hD : (train σ fresh gstep n mode).1.attacker_D = some σ.heap.length := by
    rw [train]
    split
    · cases mode <;> rfl
    · rfl
  have hM : (train σ fresh gstep n mode).1.attacker_M = some (σ.heap.length + 1) := by
    rw [train]
    split
    · cases mode <;> rfl
    · rfl
  have hgD : (heapGet (train σ fresh gstep n mode).1 σ.heap.length).vocabSize =
      σ.vocab_size := by
    rw [train]
    split
    · cases mode with
      | D =>
          rw [show attackerAddr (defineModel σ fresh) Mode.D = σ.heap.length from rfl]
          rw [heapGet_writeParams_self _ _ _
            (by rw [defineModel_heap_length]; omega)]
          rw [heapGet_defineModel_D]
      | M =>
          rw [show attackerAddr (defineModel σ fresh) Mode.M = σ.heap.length + 1 from rfl]
          rw [heapGet_writeParams_ne _ _ _ _ (by omega), heapGet_defineModel_D]
    · rw [heapGet_defineModel_D]
  have hgM : (heapGet (train σ fresh gstep n mode).1 (σ.heap.length + 1)).vocabSize =
      σ.vocab_size := by
    rw [train]
    split
    · cases mode with
      | D =>
          rw [show attackerAddr (defineModel σ fresh) Mode.D = σ.heap.length from rfl]
          rw [heapGet_writeParams_ne _ _ _ _ (by omega), heapGet_defineModel_M]
      | M =>
          rw [show attackerAddr (defineModel σ fresh) Mode.M = σ.heap.length + 1 from rfl]
          rw [heapGet_writeParams_self _ _ _
            (by rw [defineModel_heap_length]; omega)]
          rw [heapGet_defineModel_M]
    · rw [heapGet_defineModel_M]
  refine ⟨hD, hM, hgD, hgM, ?_, ?_, train_vocab σ fresh gstep n mode, fun lm lh mc hc => rfl,
    ?_⟩
  · intro a _ ha
    rw [hD]
    intro hcontra
    have : σ.heap.length = a := by injection hcontra
    omega
  · intro a _ ha
    rw [hM]
    intro hcontra
    have : σ.heap.length + 1 = a := by injection hcontra
    omega
  · intro es gs freshs feat data pred norm k lm lh mc hc
    rw [sessionTrials_vocab]
    rfl

/-- Witness for C4 at a concrete state, discharging the discard clauses
for previously bound attacker addresses. -/
theorem claim_C4_reset_both_attackers_witness :
    (train
      { heap := [⟨4, 0⟩, ⟨4, 1⟩]
        attacker_D := some 0
        attacker_M := some 1
        vocab_size := 4
        train_params := ⟨1, "mse", 2, 3⟩
        eval_metric := MetricFn.builtin "mse"
        threshold := true
        model_attacker_trained := false } 9 id 10 Mode.D).1.attacker_D ≠ some 0 :=
  (claim_C4_reset_both_attackers
    { heap := [⟨4, 0⟩, ⟨4, 1⟩]
      attacker_D := some 0
      attacker_M := some 1
      vocab_size := 4
      train_params := ⟨1, "mse", 2, 3⟩
      eval_metric := MetricFn.builtin "mse"
      threshold := true
      model_attacker_trained := false } 9 id 10 Mode.D).2.2.2.2.1 0 rfl (by decide)

/-- C5: `defineModel` produces M as a distinct object from D (different
addresses), with identical contents — same architecture parameters,
including the vocabulary size, and equal initial parameter storage, as
`copy.deepcopy` yields — and with independent parameter storage: any
in-place mutation of M's parameters leaves D's object unchanged, and
vice versa. -/
theorem claim_C5_deepcopy_independence (σ : LICState) (fresh : ℕ) :
    (defineModel σ fresh).attacker_D ≠ (defineModel σ fresh).attacker_M ∧
    heapGet (defineModel σ fresh) σ.heap.length =
      heapGet (defineModel σ fresh) (σ.heap.length + 1) ∧
    (∀ g, heapGet (writeParams (defineModel σ fresh) (σ.heap.length + 1) g)
      σ.heap.length = heapGet (defineModel σ fresh) σ.heap.length) ∧
    (∀ g, heapGet (writeParams (defineModel σ fresh) σ.heap.length g)
      (σ.heap.length + 1) = heapGet (defineModel σ fresh) (σ.heap.length + 1)) := by
  refine ⟨by simp [defineModel], ?_, ?_, ?_⟩
  · rw [heapGet_defineModel_D, heapGet_defineModel_M]
  · intro g
    exact heapGet_writeParams_ne _ _ _ _ (by omega)
  · intro g
    exact heapGet_writeParams_ne _ _ _ _ (by omega)

/-- C7: construction validates the evaluation metric eagerly — an
unrecognized metric string, or an argument that is neither callable nor
a string, makes `licInit` fail immediately with a `ValueError`, so the
failure is never deferred to a later call; a recognized string installs
the corresponding built-in metric and a callable is installed as-is,
and in both cases construction succeeds. -/
theorem claim_C7_eager_metric_validation (tp : TrainParams) (th : Bool) :
    (∀ s, s ∉ recognizedEval →
      licInit tp (MetricArg.str s) th = Except.error Err.valueError) ∧
    licInit tp MetricArg.other th = Except.error Err.valueError ∧
    (∀ s, s ∈ recognizedEval → ∃ σ, licInit tp (MetricArg.str s) th = Except.ok σ ∧
      σ.eval_metric = MetricFn.builtin s) ∧
    (∀ fid, ∃ σ, licInit tp (MetricArg.callable fid) th = Except.ok σ ∧
      σ.eval_metric = MetricFn.custom fid) := by
  refine ⟨?_, rfl, ?_, ?_⟩
  · intro s hs
    rw [licInit, initEvalMetric, if_neg hs]
  · intro s hs
    rw [licInit, initEvalMetric, if_pos hs]
    exact ⟨_, rfl, rfl⟩
  · intro fid
    exact ⟨_, rfl, rfl⟩

/-- Witness for C7: `"foo"` is rejected at construction, `"accuracy"`
and a callable are accepted with the respective metric installed. -/
theorem claim_C7_eager_metric_validation_witness :
    licInit ⟨1, "bce", 2, 3⟩ (MetricArg.str "foo") true = Except.error Err.valueError ∧
    (∃ σ, licInit ⟨1, "bce", 2, 3⟩ (MetricArg.str "accuracy") true = Except.ok σ ∧
      σ.eval_metric = MetricFn.builtin "accuracy") :=
  ⟨(claim_C7_eager_metric_validation ⟨1, "bce", 2, 3⟩ true).1 "foo" (by decide),
   (claim_C7_eager_metric_validation ⟨1, "bce", 2, 3⟩ true).2.2.1 "accuracy" (by decide)⟩

/-- C8: an unrecognized loss identifier is not examined at construction —
`licInit` succeeds for every `train_params`, storing it unexamined — and
surfaces at the first `train` call as a `KeyError` raised by the loss
dictionary lookup, after `defineModel` but before any batch is
processed: the returned state is exactly the `defineModel` state, and in
particular the selected attacker's parameter storage still holds its
fresh initialization value, untouched by any optimizer step. -/
theorem claim_C8_lazy_loss_validation (σ : LICState) (fresh : ℕ) (gstep : ℕ → ℕ) (n : ℕ)
    (mode : Mode) (h : lookupLoss σ.train_params.loss_function = false) :
    train σ fresh gstep n mode = (defineModel σ fresh, some Err.keyError) ∧
    heapGet (train σ fresh gstep n mode).1
      (attackerAddr (defineModel σ fresh) mode) = ⟨σ.vocab_size, fresh⟩ ∧
    (∀ (tp : TrainParams) (metric : MetricArg) (th : Bool) (m : MetricFn),
      initEvalMetric metric = Except.ok m →
      ∃ σ1, licInit tp metric th = Except.ok σ1 ∧ σ1.train_params = tp) := by
  have htr : train σ fresh gstep n mode = (defineModel σ fresh, some Err.keyError) := by
    rw [train, if_neg (show ¬lookupLoss (defineModel σ fresh).train_params.loss_function =
      true from by rw [defineModel_train_params, h]; simp)]
  refine ⟨htr, ?_, ?_⟩
  · rw [htr]
    cases mode with
    | D =>
        rw [show attackerAddr (defineModel σ fresh) Mode.D = σ.heap.length from rfl]
        exact heapGet_defineModel_D σ fresh
    | M =>
        rw [show attackerAddr (defineModel σ fresh) Mode.M = σ.heap.length + 1 from rfl]
        exact heapGet_defineModel_M σ fresh
  · intro tp metric th m hm
    rw [licInit, hm]
    exact ⟨_, rfl, rfl⟩

/-- Witness for C8 at a concrete state whose configured loss identifier
is the unrecognized string `"foo"`. -/
theorem claim_C8_lazy_loss_validation_witness :
    train
      { heap := []
        attacker_D := none
        attacker_M := none
        vocab_size := 7
        train_params := ⟨1, "foo", 2, 3⟩
        eval_metric := MetricFn.builtin "mse"
        threshold := true
        model_attacker_trained := false } 5 id 10 Mode.M =
      (defineModel
        { heap := []
          attacker_D := none
          attacker_M := none
          vocab_size := 7
          train_params := ⟨1, "foo", 2, 3⟩
          eval_metric := MetricFn.builtin "mse"
          threshold := true
          model_attacker_trained := false } 5, some Err.keyError) :=
  (claim_C8_lazy_loss_validation
    { heap := []
      attacker_D := none
      attacker_M := none
      vocab_size := 7
      train_params := ⟨1, "foo", 2, 3⟩
      eval_metric := MetricFn.builtin "mse"
      threshold := true
      model_attacker_trained := false } 5 id 10 Mode.M (by decide)).1

/-- Witness for C5 at a concrete state: the deep copy M has the same
contents as D but a distinct address. -/
theorem claim_C5_deepcopy_independence_witness :
    heapGet
      (defineModel
        { heap := [⟨4, 0⟩]
          attacker_D := some 0
          attacker_M := some 0
          vocab_size := 4
          train_params := ⟨1, "bce", 2, 3⟩
          eval_metric := MetricFn.builtin "bce"
          threshold := false
          model_attacker_trained := false } 8) 1 =
    heapGet
      (defineModel
        { heap := [⟨4, 0⟩]
          attacker_D := some 0
          attacker_M := some 0
          vocab_size := 4
          train_params := ⟨1, "bce", 2, 3⟩
          eval_metric := MetricFn.builtin "bce"
          threshold := false
          model_attacker_trained := false } 8) 2 :=
  (claim_C5_deepcopy_independence
    { heap := [⟨4, 0⟩]
      attacker_D := some 0
      attacker_M := some 0
      vocab_size := 4
      train_params := ⟨1, "bce", 2, 3⟩
      eval_metric := MetricFn.builtin "bce"
      threshold := false
      model_attacker_trained := false } 8).2.1

/-- Witness for C10 with the single trial value `5`. -/
theorem claim_C10_single_trial_nan_std_witness :
    torchVar (amortVals (fun _ => (5 : ℚ)) 1) = none :=
  (claim_C10_single_trial_nan_std (fun _ => (5 : ℚ))).2

/-- The evaluation score `lambda_d` of attacker D after `calcLeak` has
trained it on the reference data (source lines 103-104). -/
def lambdaD (σ : LICState) (es : MetricFn → ModelData → TensorRef → TensorRef → ℚ)
    (gstep : ℕ → ℕ) (f1 : ℕ) (data feat : TensorRef) : ℚ :=
  calcLambdaAt (train σ f1 gstep data.len Mode.D).1 es
    (attackerAddr (train σ f1 gstep data.len Mode.D).1 Mode.D) data feat

/-- The evaluation score `lambda_m` of attacker M after `calcLeak` has
trained it on the generated data (source lines 105-106), starting from
the state left by attacker D's training. -/
def lambdaM (σ : LICState) (es : MetricFn → ModelData → TensorRef → TensorRef → ℚ)
    (gstep : ℕ → ℕ) (f1 f2 : ℕ) (data pred feat : TensorRef) : ℚ :=
  calcLambdaAt (train (train σ f1 gstep data.len Mode.D).1 f2 gstep pred.len Mode.M).1 es
    (attackerAddr (train (train σ f1 gstep data.len Mode.D).1 f2 gstep pred.len Mode.M).1
      Mode.M) pred feat

/-- C1: with a recognized loss identifier (so both training phases
succeed), `calcLeak` returns `lambda_m - lambda_d` when `normalized` is
false, and `(lambda_m - lambda_d) / (lambda_m + lambda_d)` when
`normalized` is true under the precondition that `lambda_m + lambda_d`
is nonzero, where `lambda_d` and `lambda_m` are the evaluation scores of
the freshly trained attackers D and M. -/
theorem claim_C1_leakage_formula (σ : LICState)
    (es : MetricFn → ModelData → TensorRef → TensorRef → ℚ) (gstep : ℕ → ℕ)
    (f1 f2 : ℕ) (feat data pred : TensorRef)
    (hloss : lookupLoss σ.train_params.loss_function = true) :
    (calcLeak σ es gstep f1 f2 feat data pred false).2 =
      Except.ok (lambdaM σ es gstep f1 f2 data pred feat -
        lambdaD σ es gstep f1 data feat) ∧
    (lambdaM σ es gstep f1 f2 data pred feat + lambdaD σ es gstep f1 data feat ≠ 0 →
      (calcLeak σ es gstep f1 f2 feat data pred true).2 =
        Except.ok ((lambdaM σ es gstep f1 f2 data pred feat -
            lambdaD σ es gstep f1 data feat) /
          (lambdaM σ es gstep f1 f2 data pred feat +
            lambdaD σ es gstep f1 data feat))) := by
  have e1 : train σ f1 gstep data.len Mode.D =
      ((train σ f1 gstep data.len Mode.D).1, none) := by
    rw [← train_none σ f1 gstep data.len Mode.D hloss]
  have hloss1 :
      lookupLoss (train σ f1 gstep data.len Mode.D).1.train_params.loss_function = true := by
    rw [train_train_params]
    exact hloss
  have e2 : train (train σ f1 gstep data.len Mode.D).1 f2 gstep pred.len Mode.M =
      ((train (train σ f1 gstep data.len Mode.D).1 f2 gstep pred.len Mode.M).1, none) := by
    rw [← train_none (train σ f1 gstep data.len Mode.D).1 f2 gstep pred.len Mode.M hloss1]
  constructor
  · rw [calcLeak, e1]
    dsimp only
    rw [e2]
    rfl
  · intro hne
    rw [calcLeak, e1]
    dsimp only
    rw [e2]
    rfl

/-- Witness for C1 at a concrete state with loss `"mse"` and a constant
evaluation oracle giving `lambda_d = lambda_m = 1`. -/
theorem claim_C1_leakage_formula_witness :
    (calcLeak
      { heap := []
        attacker_D := none
        attacker_M := none
        vocab_size := 3
        train_params := ⟨1, "mse", 1, 1⟩
        eval_metric := MetricFn.builtin "mse"
        threshold := true
        model_attacker_trained := false } (fun _ _ _ _ => 1) id 0 0
      ⟨0, 4⟩ ⟨1, 4⟩ ⟨2, 4⟩ true).2 =
      Except.ok
        ((lambdaM
            { heap := []
              attacker_D := none
              attacker_M := none
              vocab_size := 3
              train_params := ⟨1, "mse", 1, 1⟩
              eval_metric := MetricFn.builtin "mse"
              threshold := true
              model_attacker_trained := false } (fun _ _ _ _ => 1) id 0 0
            ⟨1, 4⟩ ⟨2, 4⟩ ⟨0, 4⟩ -
          lambdaD
            { heap := []
              attacker_D := none
              attacker_M := none
              vocab_size := 3
              train_params := ⟨1, "mse", 1, 1⟩
              eval_metric := MetricFn.builtin "mse"
              threshold := true
              model_attacker_trained := false } (fun _ _ _ _ => 1) id 0
            ⟨1, 4⟩ ⟨0, 4⟩) /
         (lambdaM
            { heap := []
              attacker_D := none
              attacker_M := none
              vocab_size := 3
              train_params := ⟨1, "mse", 1, 1⟩
              eval_metric := MetricFn.builtin "mse"
              threshold := true
              model_attacker_trained := false } (fun _ _ _ _ => 1) id 0 0
            ⟨1, 4⟩ ⟨2, 4⟩ ⟨0, 4⟩ +
          lambdaD
            { heap := []
              attacker_D := none
              attacker_M := none
              vocab_size := 3
              train_params := ⟨1, "mse", 1, 1⟩
              eval_metric := MetricFn.builtin "mse"
              threshold := true
              model_attacker_trained := false } (fun _ _ _ _ => 1) id 0
            ⟨1, 4⟩ ⟨0, 4⟩)) :=
  (claim_C1_leakage_formula
    { heap := []
      attacker_D := none
      attacker_M := none
      vocab_size := 3
      train_params := ⟨1, "mse", 1, 1⟩
      eval_metric := MetricFn.builtin "mse"
      threshold := true
      model_attacker_trained := false } (fun _ _ _ _ => 1) id 0 0
    ⟨0, 4⟩ ⟨1, 4⟩ ⟨2, 4⟩ (by decide)).2
    (by simp [lambdaM, lambdaD, calcLambdaAt])

end LIC
